import Mathlib

/-!
# Verification of the labi-chat price bot and Chainlink price-feed service

Shallow embedding of `src/lib/chainlink-price-feeds.ts` (the
`ChainlinkPriceService`) and `src/lib/price-bot.ts` (the `PriceBot`
scheduler).

Modelling conventions:
* JavaScript numbers that carry prices are modelled as rationals (`ℚ`),
  so that the quotient and scaling arithmetic is exact; timestamps are
  `Nat` milliseconds.
* A fallible async call (`latestRoundData()`, `decimals()`) is modelled
  as an `Option`-valued field of an abstract `Chain` environment:
  `none` means the RPC call rejected or reverted.
* `try { ... } catch { return null }` is modelled by a function that
  returns `Option`/a caught default, with the try-body written as an
  `Except`-valued function where the claim is about the catch itself.
* The `setInterval`/`clearInterval` host-timer world is folded into the
  scheduler state as a list of armed interval timers, so that "exactly
  one active timer" is a statement about that list.
-/

namespace LabiChat

/-- `PriceData` from `chainlink-price-feeds.ts`: one observation of a
symbol's value.  `price` is a JS number, modelled as `ℚ`. -/
structure PriceData where
  symbol : String
  price : ℚ
  timestamp : Nat
  decimals : Nat
  deriving DecidableEq, Repr

/-- The result of the oracle's `latestRoundData()` call: the signed raw
`answer` and the `updatedAt` time in seconds.  The remaining fields of
the round data are unused by the service. -/
structure RoundData where
  answer : Int
  updatedAt : Nat
  deriving DecidableEq, Repr

/-- The abstract chain-access layer: for a feed contract address, the
outcome of the `latestRoundData()` and `decimals()` calls.  `none`
models a rejected/reverted call. -/
structure Chain where
  latestRoundData : String → Option RoundData
  decimals : String → Option Nat

/-- A feed-address table (`CHAINLINK_PRICE_FEEDS` or the Sepolia one):
symbol to oracle contract address, `none` for an unknown symbol. -/
def FeedTable : Type := String → Option String

/-- The mainnet table `CHAINLINK_PRICE_FEEDS` from the source. -/
def CHAINLINK_PRICE_FEEDS : FeedTable := fun s =>
  if s = "BTC/USD" then some "0xF4030086522a5bEEa4988F8cA5B36dbC97BeE88c"
  else if s = "ETH/USD" then some "0x5f4eC3Df9cbd43714FE2740f5E3616155c5b8419"
  else if s = "BNB/USD" then some "0x14e613AC84a31f709eadbdF89C6CC390fDc9540A"
  else none

/-- The testnet table `CHAINLINK_PRICE_FEEDS_SEPOLIA` from the source. -/
def CHAINLINK_PRICE_FEEDS_SEPOLIA : FeedTable := fun s =>
  if s = "BTC/USD" then some "0x1b44F3514812d835EB1BDB0acB33d3fA3351Ee43"
  else if s = "ETH/USD" then some "0x694AA1769357215DE4FAC081bf1f309aDC325306"
  else if s = "BNB/USD" then some "0x2c9972C4C4C4C4C4C4C4C4C4C4C4C4C4C4C4C4C4"
  else none

/-- The direct branch of `ChainlinkPriceService.getPrice`: look up the
feed address, issue `latestRoundData()` and `decimals()` (both must
succeed, mirroring `Promise.all`), convert the raw answer with
`formatUnits` (division by `10 ^ decimals`), and stamp the result with
`updatedAt * 1000` milliseconds.  Any failure (unknown symbol — the
thrown `Price feed not found` — or a failed call) is caught by
`getPrice`'s `catch` and becomes `none`. -/
def getPriceDirect (feeds : FeedTable) (chain : Chain) (symbol : String) :
    Option PriceData :=
  match feeds symbol with
  | none => none
  | some addr =>
    match chain.latestRoundData addr, chain.decimals addr with
    | some rd, some dec =>
      some { symbol := symbol
             price := (rd.answer : ℚ) / 10 ^ dec
             timestamp := rd.updatedAt * 1000
             decimals := dec }
    | _, _ => none

/-- `ChainlinkPriceService.getCalculatedPrice`: resolve the derived
symbol to its numerator/denominator direct pair, fetch both, and return
the quotient with the max timestamp and `decimals := 18`.  The source
calls `this.getPrice` on the two constituents; since the constituents
(`BTC/USD`, `BNB/USD`, `ETH/USD`) are never derived symbols, that call
takes the direct branch, which is `getPriceDirect` here (the bridging
lemma `getPrice_eq_direct` below makes this step explicit).  A failed
sub-fetch raises `Failed to fetch prices`, caught into `none`.
`derivedPair` is the numerator/denominator resolution at the top of the
source function, with `none` for its `Unsupported calculated price
symbol` throw. -/
def derivedPair (symbol : String) : Option (String × String) :=
  if symbol = "BTC/ETH" then some ("BTC/USD", "ETH/USD")
  else if symbol = "BNB/ETH" then some ("BNB/USD", "ETH/USD")
  else none

def getCalculatedPrice (feeds : FeedTable) (chain : Chain) (symbol : String) :
    Option PriceData :=
  match derivedPair symbol with
  | none => none
  | some (numeratorSymbol, denominatorSymbol) =>
    match getPriceDirect feeds chain numeratorSymbol,
          getPriceDirect feeds chain denominatorSymbol with
    | some numeratorPrice, some denominatorPrice =>
      some { symbol := symbol
             price := numeratorPrice.price / denominatorPrice.price
             timestamp := max numeratorPrice.timestamp denominatorPrice.timestamp
             decimals := 18 }
    | _, _ => none

/-- `ChainlinkPriceService.getPrice`: dispatch the two derived symbols
to `getCalculatedPrice`, everything else to the direct read.  Total:
every internal throw is caught and surfaced as `none`. -/
def getPrice (feeds : FeedTable) (chain : Chain) (symbol : String) :
    Option PriceData :=
  if symbol = "BTC/ETH" then getCalculatedPrice feeds chain "BTC/ETH"
  else if symbol = "BNB/ETH" then getCalculatedPrice feeds chain "BNB/ETH"
  else getPriceDirect feeds chain symbol

/-- The fixed canonical symbol list inside `getAllPrices`. -/
def allSymbols : List String := ["BTC/USD", "ETH/USD", "BTC/ETH", "BNB/ETH"]

/-- `ChainlinkPriceService.getAllPrices`: fetch the canonical symbols
(`Promise.all` keeps the four results in order) and keep exactly the
non-`null` ones. -/
def getAllPrices (feeds : FeedTable) (chain : Chain) : List PriceData :=
  (allSymbols.map (getPrice feeds chain)).filterMap id

/-- A sample chain environment for concrete evaluations: the mainnet
BTC/USD and ETH/USD feed addresses answer with fixed round data (BTC at
45000, ETH at 3000, eight decimals); every other address — in
particular the BNB/USD feed — fails. -/
def sampleChain : Chain where
  latestRoundData := fun addr =>
    if addr = "0xF4030086522a5bEEa4988F8cA5B36dbC97BeE88c" then
      some { answer := 4500000000000, updatedAt := 1700000000 }
    else if addr = "0x5f4eC3Df9cbd43714FE2740f5E3616155c5b8419" then
      some { answer := 300000000000, updatedAt := 1700000100 }
    else none
  decimals := fun addr =>
    if addr = "0xF4030086522a5bEEa4988F8cA5B36dbC97BeE88c" then some 8
    else if addr = "0x5f4eC3Df9cbd43714FE2740f5E3616155c5b8419" then some 8
    else none

/-! ## The `PriceBot` scheduler (`src/lib/price-bot.ts`)

The bot's callback is modelled by collecting, for each operation, the
list of `ChatMessage`s passed to `messageCallback` during that
operation (in invocation order); "the callback is invoked exactly once"
is "that list has length one".  The host's `setInterval` /
`clearInterval` world is part of the state: `activeTimers` is the list
of armed interval timers `(id, periodMs)`, and `nextTimerId` the next
fresh id.  `formatPriceMessage` (locale- and wall-clock-dependent) is
passed in abstractly as `fmt`; the scheduler's control flow never
inspects its output.  A cycle's fetch outcome is an
`Except Unit (List PriceData)`: `.ok` is a resolved `getAllPrices`
promise, `.error` a rejection, absorbed by the `catch` in
`sendPriceUpdate`. -/

/-- `ChatMessage` from `price-bot.ts` (`msgType` for the `type` field,
which is `'user' | 'price-bot'`). -/
structure ChatMessage where
  id : String
  msgType : String
  content : String
  timestamp : Nat
  priceData : Option (List PriceData)
  senderName : Option String
  deriving DecidableEq, Repr

/-- `PriceBotConfig` from `price-bot.ts`. -/
structure PriceBotConfig where
  intervalMinutes : Nat
  enabled : Bool
  symbols : List String
  deriving DecidableEq, Repr

/-- A `Partial<PriceBotConfig>`: each field optionally present. -/
structure PartialPriceBotConfig where
  intervalMinutes : Option Nat := none
  enabled : Option Bool := none
  symbols : Option (List String) := none
  deriving DecidableEq, Repr

/-- The object spread `{ ...this.config, ...newConfig }`: a present
field of the partial wins. -/
def mergeConfig (c : PriceBotConfig) (p : PartialPriceBotConfig) : PriceBotConfig :=
  { intervalMinutes := p.intervalMinutes.getD c.intervalMinutes
    enabled := p.enabled.getD c.enabled
    symbols := p.symbols.getD c.symbols }

/-- The `PriceBot` instance state together with the host timer world. -/
structure BotState where
  intervalId : Option Nat
  config : PriceBotConfig
  previousPrices : List (String × PriceData)
  activeTimers : List (Nat × Nat)
  nextTimerId : Nat
  deriving DecidableEq, Repr

/-- The constructor `new PriceBot(config, cb)` in a fresh host: no
timer armed, empty previous-price map. -/
def initBot (config : PriceBotConfig) : BotState :=
  { intervalId := none
    config := config
    previousPrices := []
    activeTimers := []
    nextTimerId := 0 }

/-- `defaultPriceBotConfig` from the source. -/
def defaultPriceBotConfig : PriceBotConfig :=
  { intervalMinutes := 5
    enabled := true
    symbols := ["BTC/USD", "ETH/USD", "BTC/ETH", "BNB/ETH"] }

/-- `Map.prototype.set`: replace in place if the key is present,
append otherwise. -/
def mapSet (m : List (String × PriceData)) (k : String) (v : PriceData) :
    List (String × PriceData) :=
  match m with
  | [] => [(k, v)]
  | (k0, v0) :: rest => if k0 = k then (k, v) :: rest else (k0, v0) :: mapSet rest k v

/-- The fixed error text of the `catch` branch of `sendPriceUpdate`. -/
def failureText : String := "❌ Failed to fetch latest prices. Please try again later."

/-- The error `ChatMessage` built in the `catch` branch: fixed content,
no `priceData`. -/
def errorChatMessage (now : Nat) : ChatMessage :=
  { id := "price-bot-error-" ++ toString now
    msgType := "price-bot"
    content := failureText
    timestamp := now
    priceData := none
    senderName := some "Price Bot" }

/-- The `try` body of `PriceBot.sendPriceUpdate`: await `getAllPrices`
(its rejection propagates out of the body), filter to the configured
symbols, skip silently when the filtered list is empty, otherwise build
the price message, update the previous-price map, and invoke the
callback once. -/
def sendPriceUpdateBody (fmt : List PriceData → String)
    (fetch : Except Unit (List PriceData)) (now : Nat) (s : BotState) :
    Except Unit (BotState × List ChatMessage) :=
  match fetch with
  | .error e => .error e
  | .ok allPrices =>
  let filteredPrices := allPrices.filter (fun price => s.config.symbols.contains price.symbol)
  if filteredPrices.length = 0 then
    .ok (s, [])
  else
    let message : ChatMessage :=
      { id := "price-bot-" ++ toString now
        msgType := "price-bot"
        content := fmt filteredPrices
        timestamp := now
        priceData := some filteredPrices
        senderName := some "Price Bot" }
    let s := { s with
      previousPrices :=
        filteredPrices.foldl (fun m price => mapSet m price.symbol price) s.previousPrices }
    .ok (s, [message])

/-- `PriceBot.sendPriceUpdate`: the try body with its `catch`, which
absorbs any thrown error into a single error message.  The function is
total — no exception leaves it. -/
def sendPriceUpdate (fmt : List PriceData → String)
    (fetch : Except Unit (List PriceData)) (now : Nat) (s : BotState) :
    BotState × List ChatMessage :=
  match sendPriceUpdateBody fmt fetch now s with
  | .ok r => r
  | .error _ => (s, [errorChatMessage now])

/-- `PriceBot.stop`: clear the armed interval (no-op when none). -/
def stop (s : BotState) : BotState :=
  match s.intervalId with
  | some id =>
    { s with
      activeTimers := s.activeTimers.filter (fun t => t.1 ≠ id)
      intervalId := none }
  | none => s

/-- `PriceBot.start`: tear down an existing timer first, bail out when
disabled, otherwise run one immediate update cycle and arm a fresh
interval of `intervalMinutes * 60 * 1000` milliseconds. -/
def start (fmt : List PriceData → String) (fetch : Except Unit (List PriceData))
    (now : Nat) (s : BotState) : BotState × List ChatMessage :=
  let s := if s.intervalId.isSome then stop s else s
  if !s.config.enabled then
    (s, [])
  else
    let r := sendPriceUpdate fmt fetch now s
    ({ r.1 with
        activeTimers :=
          r.1.activeTimers ++ [(r.1.nextTimerId, r.1.config.intervalMinutes * 60 * 1000)]
        nextTimerId := r.1.nextTimerId + 1
        intervalId := some r.1.nextTimerId }, r.2)

/-- `PriceBot.updateConfig`: spread-merge the partial config, then
start when enabled-but-stopped, stop when disabled-but-running. -/
def updateConfig (fmt : List PriceData → String)
    (fetch : Except Unit (List PriceData)) (now : Nat)
    (p : PartialPriceBotConfig) (s : BotState) : BotState × List ChatMessage :=
  let s := { s with config := mergeConfig s.config p }
  if s.config.enabled && s.intervalId.isNone then
    start fmt fetch now s
  else if !s.config.enabled && s.intervalId.isSome then
    (stop s, [])
  else
    (s, [])

/-- `PriceBot.triggerManualUpdate`: exactly one update cycle, shared
with the timer path. -/
def triggerManualUpdate (fmt : List PriceData → String)
    (fetch : Except Unit (List PriceData)) (now : Nat) (s : BotState) :
    BotState × List ChatMessage :=
  sendPriceUpdate fmt fetch now s

/-- A host interval timer with id `id` fires: the tick runs an update
cycle only if that timer is still armed. -/
def timerTick (fmt : List PriceData → String)
    (fetch : Except Unit (List PriceData)) (now : Nat) (id : Nat) (s : BotState) :
    BotState × List ChatMessage :=
  if s.activeTimers.any (fun t => t.1 = id) then
    sendPriceUpdate fmt fetch now s
  else
    (s, [])

/-- States of the scheduler reachable through its public surface from
a freshly constructed bot. -/
inductive Reachable : BotState → Prop where
  | init (c : PriceBotConfig) : Reachable (initBot c)
  | start (fmt fetch now) {s} : Reachable s → Reachable (start fmt fetch now s).1
  | stop {s} : Reachable s → Reachable (stop s)
  | updateConfig (fmt fetch now p) {s} :
      Reachable s → Reachable (updateConfig fmt fetch now p s).1
  | manual (fmt fetch now) {s} :
      Reachable s → Reachable (triggerManualUpdate fmt fetch now s).1
  | tick (fmt fetch now id) {s} :
      Reachable s → Reachable (timerTick fmt fetch now id s).1

/-- Timer consistency: the ids of the host's armed interval timers are
exactly the tracked `intervalId` (so never more than one timer). -/
def TimersOk (s : BotState) : Prop :=
  s.activeTimers.map Prod.fst = s.intervalId.toList

/-- The scheduler invariant: a disabled bot tracks no interval, and the
armed host timers are exactly the tracked interval. -/
def TimerInv (s : BotState) : Prop :=
  (s.config.enabled = false → s.intervalId = none) ∧ TimersOk s

/-! ## Reference semantics of the accessor copies (C9)

`getConfig()` returns the object spread `{ ...this.config }` and
`getPreviousPrices()` returns `new Map(this.previousPrices)`.  Whether
these are *defensive* copies is a statement about JavaScript object
aliasing, so this section models the mutable objects explicitly: a
`World` holds the string-array objects (the `symbols` arrays) and the
`Map` objects, addressed by index; records hold references into it.
The spread copies the `symbols` *reference*; `new Map` allocates a
fresh map object initialised with the entries of the old one. -/

structure World where
  arrays : List (List String)
  maps : List (List (String × PriceData))
  deriving Repr

/-- Dereference a string-array object. -/
def readArray (w : World) (r : Nat) : List String := w.arrays.getD r []

/-- `array.push(x)` through a reference. -/
def arrayPush (w : World) (r : Nat) (x : String) : World :=
  { w with arrays := w.arrays.set r (w.arrays.getD r [] ++ [x]) }

/-- Dereference a `Map` object. -/
def readMap (w : World) (r : Nat) : List (String × PriceData) := w.maps.getD r []

/-- `map.set(k, v)` through a reference. -/
def mapObjSet (w : World) (r : Nat) (k : String) (v : PriceData) : World :=
  { w with maps := w.maps.set r (mapSet (readMap w r) k v) }

/-- Allocate a fresh `Map` object with the given entries. -/
def allocMap (w : World) (contents : List (String × PriceData)) : World × Nat :=
  ({ w with maps := w.maps ++ [contents] }, w.maps.length)

/-- The `PriceBot` fields relevant to the accessors: the config's plain
fields plus the reference to its `symbols` array, and the reference to
the `previousPrices` map. -/
structure BotObj where
  intervalMinutes : Nat
  enabled : Bool
  symbolsRef : Nat
  prevMapRef : Nat
  deriving Repr

/-- The record handed out by `getConfig()`: the object spread copies
the top-level fields, including the `symbols` array *reference*. -/
structure ConfigObj where
  intervalMinutes : Nat
  enabled : Bool
  symbolsRef : Nat
  deriving DecidableEq, Repr

/-- `PriceBot.getConfig`: `return { ...this.config }`. -/
def getConfigImpl (b : BotObj) : ConfigObj :=
  { intervalMinutes := b.intervalMinutes
    enabled := b.enabled
    symbolsRef := b.symbolsRef }

/-- `PriceBot.getPreviousPrices`: `return new Map(this.previousPrices)`
— allocates a fresh map object initialised with the current entries. -/
def getPreviousPricesImpl (w : World) (b : BotObj) : World × Nat :=
  allocMap w (readMap w b.prevMapRef)

/-- A live world and bot for concrete evaluation: the bot's `symbols`
array is object 0, its previous-price map is object 0. -/
def sampleWorld : World := { arrays := [["BTC/USD"]], maps := [[]] }

def sampleBot : BotObj :=
  { intervalMinutes := 5, enabled := true, symbolsRef := 0, prevMapRef := 0 }

def samplePriceData : PriceData :=
  { symbol := "BTC/USD", price := 45000, timestamp := 1700000000000, decimals := 8 }

/-- On a non-derived symbol, `getPrice` is the direct read. -/
theorem getPrice_eq_direct (feeds : FeedTable) (chain : Chain) (symbol : String)
    (h1 : symbol ≠ "BTC/ETH") (h2 : symbol ≠ "BNB/ETH") :
    getPrice feeds chain symbol = getPriceDirect feeds chain symbol := by
  simp [getPrice, h1, h2]

/-- Whenever a direct read succeeds, the returned `symbol` field is the
requested symbol. -/
theorem getPriceDirect_symbol {feeds : FeedTable} {chain : Chain} {symbol : String}
    {p : PriceData} (h : getPriceDirect feeds chain symbol = some p) :
    p.symbol = symbol := by
  unfold getPriceDirect at h
  rcases ha : feeds symbol with _ | addr <;> rw [ha] at h
  · simp at h
  · rcases hr : chain.latestRoundData addr with _ | rd <;>
      rcases hd : chain.decimals addr with _ | dec <;>
      simp [hr, hd] at h <;> simp [← h]

/-- Whenever a derived computation succeeds, the returned `symbol`
field is the requested symbol. -/
theorem getCalculatedPrice_symbol {feeds : FeedTable} {chain : Chain}
    {symbol : String} {p : PriceData}
    (h : getCalculatedPrice feeds chain symbol = some p) :
    p.symbol = symbol := by
  unfold getCalculatedPrice at h
  rcases hp : derivedPair symbol with _ | ⟨num, den⟩ <;> rw [hp] at h
  · simp at h
  · rcases hn : getPriceDirect feeds chain num with _ | np <;>
      rcases hd : getPriceDirect feeds chain den with _ | dp <;>
      simp [hn, hd] at h <;> simp [← h]

/-- Whenever `getPrice` succeeds, the returned `symbol` field is the
requested symbol (both branches of the source set `symbol` from the
argument). -/
theorem getPrice_symbol {feeds : FeedTable} {chain : Chain} {symbol : String}
    {p : PriceData} (h : getPrice feeds chain symbol = some p) :
    p.symbol = symbol := by
  unfold getPrice at h
  split at h
  · next heq => subst heq; exact getCalculatedPrice_symbol h
  · split at h
    · next heq => subst heq; exact getCalculatedPrice_symbol h
    · exact getPriceDirect_symbol h

/-- Auxiliary counting identity: the successes kept by `filterMap id`
plus the dropped `none` entries account for the whole list. -/
theorem length_filterMap_id_add_countP {α : Type} (l : List (Option α)) :
    (l.filterMap id).length + l.countP (fun o => o.isNone) = l.length := by
  induction l with
  | nil => rfl
  | cons a t ih =>
    cases a <;> simp [List.filterMap_cons, List.countP_cons] <;> omega

/-- `getPrice` dispatches the two derived symbols to
`getCalculatedPrice`. -/
theorem getPrice_derived (feeds : FeedTable) (chain : Chain) :
    getPrice feeds chain "BTC/ETH" = getCalculatedPrice feeds chain "BTC/ETH" ∧
    getPrice feeds chain "BNB/ETH" = getCalculatedPrice feeds chain "BNB/ETH" :=
  ⟨rfl, rfl⟩

/-- Unfolding of the direct read once the feed address is known. -/
theorem getPriceDirect_eq_match (feeds : FeedTable) (chain : Chain)
    {symbol addr : String} (hf : feeds symbol = some addr) :
    getPriceDirect feeds chain symbol =
      (match chain.latestRoundData addr, chain.decimals addr with
       | some rd, some dec =>
         some { symbol := symbol
                price := (rd.answer : ℚ) / 10 ^ dec
                timestamp := rd.updatedAt * 1000
                decimals := dec }
       | _, _ => none) := by
  unfold getPriceDirect
  rw [hf]

/-- A symbol absent from the feed table fails the direct read (the
source throws `Price feed not found`, caught into `null`). -/
theorem getPriceDirect_not_found (feeds : FeedTable) (chain : Chain)
    {symbol : String} (hf : feeds symbol = none) :
    getPriceDirect feeds chain symbol = none := by
  unfold getPriceDirect
  rw [hf]

/-- Unfolding of the derived computation once the pair is resolved. -/
theorem getCalculatedPrice_eq_match (feeds : FeedTable) (chain : Chain)
    {sym num den : String} (h : derivedPair sym = some (num, den)) :
    getCalculatedPrice feeds chain sym =
      (match getPriceDirect feeds chain num, getPriceDirect feeds chain den with
       | some np, some dp =>
         some { symbol := sym
                price := np.price / dp.price
                timestamp := max np.timestamp dp.timestamp
                decimals := 18 }
       | _, _ => none) := by
  unfold getCalculatedPrice
  rw [h]

/-- Successful derived computation. -/
theorem getCalculatedPrice_some (feeds : FeedTable) (chain : Chain)
    {sym num den : String} {np dp : PriceData}
    (h : derivedPair sym = some (num, den))
    (hn : getPriceDirect feeds chain num = some np)
    (hd : getPriceDirect feeds chain den = some dp) :
    getCalculatedPrice feeds chain sym =
      some { symbol := sym
             price := np.price / dp.price
             timestamp := max np.timestamp dp.timestamp
             decimals := 18 } := by
  rw [getCalculatedPrice_eq_match feeds chain h, hn, hd]

/-- A failed sub-fetch fails the derived computation. -/
theorem getCalculatedPrice_fail (feeds : FeedTable) (chain : Chain)
    {sym num den : String} (h : derivedPair sym = some (num, den))
    (herr : getPriceDirect feeds chain num = none ∨
            getPriceDirect feeds chain den = none) :
    getCalculatedPrice feeds chain sym = none := by
  rw [getCalculatedPrice_eq_match feeds chain h]
  rcases hn2 : getPriceDirect feeds chain num with _ | np <;>
    rcases hd2 : getPriceDirect feeds chain den with _ | dp <;>
    first
      | rfl
      | (rcases herr with herr | herr <;> simp_all)

/-- C7: for a direct symbol with a configured feed address whose two
oracle calls succeed, `getPrice` returns the raw answer scaled down by
`10 ^ decimals`, the oracle `updatedAt` time converted to milliseconds,
and the oracle's native decimal count; a non-negative raw answer yields
a non-negative price. -/
theorem C7_direct_fetch (feeds : FeedTable) (chain : Chain) (symbol addr : String)
    (rd : RoundData) (dec : Nat)
    (h1 : symbol ≠ "BTC/ETH") (h2 : symbol ≠ "BNB/ETH")
    (hf : feeds symbol = some addr)
    (hr : chain.latestRoundData addr = some rd)
    (hd : chain.decimals addr = some dec) :
    getPrice feeds chain symbol =
      some { symbol := symbol
             price := (rd.answer : ℚ) / 10 ^ dec
             timestamp := rd.updatedAt * 1000
             decimals := dec } ∧
    (0 ≤ rd.answer → 0 ≤ (rd.answer : ℚ) / 10 ^ dec) := by
  constructor
  · rw [getPrice_eq_direct _ _ _ h1 h2, getPriceDirect_eq_match feeds chain hf,
      hr, hd]
  · intro h0
    apply div_nonneg
    · exact_mod_cast h0
    · positivity

/-- Witness for C7 at the sample chain's BTC/USD feed. -/
theorem C7_direct_fetch_witness :
    getPrice CHAINLINK_PRICE_FEEDS sampleChain "BTC/USD" =
      some { symbol := "BTC/USD"
             price := ((4500000000000 : Int) : ℚ) / 10 ^ 8
             timestamp := 1700000000 * 1000
             decimals := 8 } ∧
    (0 ≤ (4500000000000 : Int) → 0 ≤ ((4500000000000 : Int) : ℚ) / 10 ^ 8) :=
  C7_direct_fetch CHAINLINK_PRICE_FEEDS sampleChain "BTC/USD"
    "0xF4030086522a5bEEa4988F8cA5B36dbC97BeE88c"
    { answer := 4500000000000, updatedAt := 1700000000 } 8
    (by decide) (by decide) rfl rfl rfl

/-- C2: for each derived symbol with its numerator (`BTC/ETH` over
`BTC/USD`, `BNB/ETH` over `BNB/USD`) and common denominator `ETH/USD`,
if both constituent direct fetches succeed then `getPrice` on the
derived symbol returns the quotient price, the max of the two
timestamps, and `decimals = 18`. -/
theorem C2_derived_quotient (feeds : FeedTable) (chain : Chain)
    (sym num : String) (np dp : PriceData)
    (hpair : (sym = "BTC/ETH" ∧ num = "BTC/USD") ∨ (sym = "BNB/ETH" ∧ num = "BNB/USD"))
    (hn : getPrice feeds chain num = some np)
    (hd : getPrice feeds chain "ETH/USD" = some dp) :
    getPrice feeds chain sym =
      some { symbol := sym
             price := np.price / dp.price
             timestamp := max np.timestamp dp.timestamp
             decimals := 18 } := by
  rw [getPrice_eq_direct _ _ _ (by decide) (by decide)] at hd
  rcases hpair with ⟨rfl, rfl⟩ | ⟨rfl, rfl⟩
  · rw [getPrice_eq_direct _ _ _ (by decide) (by decide)] at hn
    rw [(getPrice_derived feeds chain).1]
    exact getCalculatedPrice_some feeds chain rfl hn hd
  · rw [getPrice_eq_direct _ _ _ (by decide) (by decide)] at hn
    rw [(getPrice_derived feeds chain).2]
    exact getCalculatedPrice_some feeds chain rfl hn hd

/-- Witness for C2 at the sample chain: BTC/ETH from BTC/USD and
ETH/USD. -/
theorem C2_derived_quotient_witness :
    getPrice CHAINLINK_PRICE_FEEDS sampleChain "BTC/ETH" =
      some { symbol := "BTC/ETH"
             price := (((4500000000000 : Int) : ℚ) / 10 ^ 8) /
                      (((300000000000 : Int) : ℚ) / 10 ^ 8)
             timestamp := max (1700000000 * 1000) (1700000100 * 1000)
             decimals := 18 } :=
  C2_derived_quotient CHAINLINK_PRICE_FEEDS sampleChain "BTC/ETH" "BTC/USD"
    { symbol := "BTC/USD", price := ((4500000000000 : Int) : ℚ) / 10 ^ 8,
      timestamp := 1700000000 * 1000, decimals := 8 }
    { symbol := "ETH/USD", price := ((300000000000 : Int) : ℚ) / 10 ^ 8,
      timestamp := 1700000100 * 1000, decimals := 8 }
    (Or.inl ⟨rfl, rfl⟩) rfl rfl

/-- C5: `getPrice` returns `none` — rather than letting an exception
escape — when the symbol is unknown to the feed table, when the
underlying network/contract call errors, and when either sub-fetch of a
derived pair fails.  (That `getPrice` cannot throw at all is expressed
by its very type: it is a total `Option`-valued function whose `none`
branches model the source's `catch` blocks.) -/
theorem C5_no_throw (feeds : FeedTable) (chain : Chain) (symbol : String) :
    (feeds symbol = none → symbol ≠ "BTC/ETH" → symbol ≠ "BNB/ETH" →
      getPrice feeds chain symbol = none) ∧
    (∀ addr, feeds symbol = some addr → symbol ≠ "BTC/ETH" → symbol ≠ "BNB/ETH" →
      chain.latestRoundData addr = none ∨ chain.decimals addr = none →
      getPrice feeds chain symbol = none) ∧
    (getPrice feeds chain "BTC/USD" = none ∨ getPrice feeds chain "ETH/USD" = none →
      getPrice feeds chain "BTC/ETH" = none) ∧
    (getPrice feeds chain "BNB/USD" = none ∨ getPrice feeds chain "ETH/USD" = none →
      getPrice feeds chain "BNB/ETH" = none) := by
  refine ⟨?_, ?_, ?_, ?_⟩
  · intro hf h1 h2
    rw [getPrice_eq_direct _ _ _ h1 h2]
    exact getPriceDirect_not_found feeds chain hf
  · intro addr hf h1 h2 herr
    rw [getPrice_eq_direct _ _ _ h1 h2, getPriceDirect_eq_match feeds chain hf]
    rcases hrd : chain.latestRoundData addr with _ | rd <;>
      rcases hdec : chain.decimals addr with _ | d <;>
      first
        | rfl
        | (rcases herr with herr | herr <;> simp_all)
  · intro herr
    rw [getPrice_eq_direct _ _ _ (by decide) (by decide),
        getPrice_eq_direct _ _ _ (by decide) (by decide)] at herr
    rw [(getPrice_derived feeds chain).1]
    exact getCalculatedPrice_fail feeds chain rfl herr
  · intro herr
    rw [getPrice_eq_direct _ _ _ (by decide) (by decide),
        getPrice_eq_direct _ _ _ (by decide) (by decide)] at herr
    rw [(getPrice_derived feeds chain).2]
    exact getCalculatedPrice_fail feeds chain rfl herr

/-- Witness for C5: an unknown symbol yields `none` on the sample
chain. -/
theorem C5_no_throw_witness :
    getPrice CHAINLINK_PRICE_FEEDS sampleChain "DOGE/USD" = none :=
  (C5_no_throw CHAINLINK_PRICE_FEEDS sampleChain "DOGE/USD").1
    rfl (by decide) (by decide)

/-- C4: `getAllPrices` returns exactly the successful sub-results of
the canonical symbol set — every returned entry is the successful fetch
of its own symbol, so a symbol whose fetch returned `none` never
appears — and when exactly one of the four constituent fetches fails
the result has length 3. -/
theorem C4_fetchAll (feeds : FeedTable) (chain : Chain) :
    (∀ p ∈ getAllPrices feeds chain, getPrice feeds chain p.symbol = some p) ∧
    ((allSymbols.countP fun s => (getPrice feeds chain s).isNone) = 1 →
      (getAllPrices feeds chain).length = 3) := by
  constructor
  · intro p hp
    unfold getAllPrices at hp
    rw [List.mem_filterMap] at hp
    obtain ⟨o, ho, hop⟩ := hp
    rw [List.mem_map] at ho
    obtain ⟨s, _, hso⟩ := ho
    simp only [id] at hop
    subst hop
    rw [getPrice_symbol hso]
    exact hso
  · intro hcount
    have hlen := length_filterMap_id_add_countP (allSymbols.map (getPrice feeds chain))
    rw [List.countP_map] at hlen
    have hc : (allSymbols.countP ((fun o => o.isNone) ∘ getPrice feeds chain)) =
        (allSymbols.countP fun s => (getPrice feeds chain s).isNone) := rfl
    rw [hc, hcount, List.length_map, show allSymbols.length = 4 from rfl] at hlen
    unfold getAllPrices
    omega

/-- Witness for C4 on the sample chain, where only the BNB/ETH fetch
(of the four canonical ones) fails: the first returned entry is the
successful BTC/USD fetch, and the result length is 3. -/
theorem C4_fetchAll_witness :
    ((allSymbols.countP fun s =>
        (getPrice CHAINLINK_PRICE_FEEDS sampleChain s).isNone) = 1) ∧
    (getAllPrices CHAINLINK_PRICE_FEEDS sampleChain).length = 3 :=
  ⟨by decide, (C4_fetchAll CHAINLINK_PRICE_FEEDS sampleChain).2 (by decide)⟩

/-- A cycle whose fetched-then-filtered list is empty is silently
skipped: no state change and no callback invocation. -/
theorem sendPriceUpdate_skip (fmt : List PriceData → String)
    (l : List PriceData) (now : Nat) (s : BotState)
    (hfil : (l.filter fun price => s.config.symbols.contains price.symbol).length = 0) :
    sendPriceUpdate fmt (.ok l) now s = (s, []) := by
  unfold sendPriceUpdate sendPriceUpdateBody
  dsimp only
  rw [if_pos hfil]

/-- A cycle with a non-empty filtered list emits one price message
carrying the filtered data and folds it into the previous-price map. -/
theorem sendPriceUpdate_emit (fmt : List PriceData → String)
    (l : List PriceData) (now : Nat) (s : BotState)
    (hfil : ¬(l.filter fun price => s.config.symbols.contains price.symbol).length = 0) :
    sendPriceUpdate fmt (.ok l) now s =
      ({ s with previousPrices :=
           ((l.filter (fun price => s.config.symbols.contains price.symbol)).foldl
             (fun m price => mapSet m price.symbol price) s.previousPrices) },
       [{ id := "price-bot-" ++ toString now
          msgType := "price-bot"
          content := fmt (l.filter (fun price => s.config.symbols.contains price.symbol))
          timestamp := now
          priceData := some (l.filter (fun price => s.config.symbols.contains price.symbol))
          senderName := some "Price Bot" }]) := by
  unfold sendPriceUpdate sendPriceUpdateBody
  dsimp only
  rw [if_neg hfil]

/-- A cycle whose fetch rejects is absorbed by the `catch`: the state
is untouched and the single error message is emitted. -/
theorem sendPriceUpdate_error (fmt : List PriceData → String)
    (e : Unit) (now : Nat) (s : BotState) :
    sendPriceUpdate fmt (.error e) now s = (s, [errorChatMessage now]) := rfl

/-- An update cycle touches only the previous-price map: the armed
timer, the interval id, the fresh-id counter and the configuration all
survive it (in particular, a failing cycle never tears a timer down). -/
theorem sendPriceUpdate_frame (fmt : List PriceData → String)
    (fetch : Except Unit (List PriceData)) (now : Nat) (s : BotState) :
    (sendPriceUpdate fmt fetch now s).1.intervalId = s.intervalId ∧
    (sendPriceUpdate fmt fetch now s).1.activeTimers = s.activeTimers ∧
    (sendPriceUpdate fmt fetch now s).1.nextTimerId = s.nextTimerId ∧
    (sendPriceUpdate fmt fetch now s).1.config = s.config := by
  rcases fetch with e | l
  · rw [sendPriceUpdate_error]
    exact ⟨rfl, rfl, rfl, rfl⟩
  · by_cases hfil : (l.filter fun price => s.config.symbols.contains price.symbol).length = 0
    · rw [sendPriceUpdate_skip fmt l now s hfil]
      exact ⟨rfl, rfl, rfl, rfl⟩
    · rw [sendPriceUpdate_emit fmt l now s hfil]
      exact ⟨rfl, rfl, rfl, rfl⟩

/-- An update cycle invokes the callback at most once. -/
theorem sendPriceUpdate_length_le (fmt : List PriceData → String)
    (fetch : Except Unit (List PriceData)) (now : Nat) (s : BotState) :
    (sendPriceUpdate fmt fetch now s).2.length ≤ 1 := by
  rcases fetch with e | l
  · rw [sendPriceUpdate_error]
    exact Nat.le_refl 1
  · by_cases hfil : (l.filter fun price => s.config.symbols.contains price.symbol).length = 0
    · rw [sendPriceUpdate_skip fmt l now s hfil]
      exact Nat.zero_le 1
    · rw [sendPriceUpdate_emit fmt l now s hfil]
      exact Nat.le_refl 1

/-- `stop` on a bot with no armed interval is a no-op. -/
theorem stop_of_none {s : BotState} (hid : s.intervalId = none) : stop s = s := by
  unfold stop
  rw [hid]

/-- `stop` on a bot whose single armed interval is tracked by
`intervalId` clears exactly that timer. -/
theorem stop_of_some {s : BotState} {id p : Nat} (hid : s.intervalId = some id)
    (ht : s.activeTimers = [(id, p)]) :
    stop s = { s with activeTimers := [], intervalId := none } := by
  unfold stop
  rw [hid]
  dsimp only
  rw [ht]
  simp

/-- `stop` never touches the configuration, the previous-price map or
the fresh-id counter. -/
theorem stop_frame (s : BotState) :
    (stop s).config = s.config ∧ (stop s).previousPrices = s.previousPrices ∧
    (stop s).nextTimerId = s.nextTimerId := by
  unfold stop
  rcases s.intervalId with _ | id <;> exact ⟨rfl, rfl, rfl⟩

theorem timersOk_none {s : BotState} (hok : TimersOk s)
    (hid : s.intervalId = none) : s.activeTimers = [] := by
  unfold TimersOk at hok
  rw [hid] at hok
  simpa using hok

theorem timersOk_some {s : BotState} {id : Nat} (hok : TimersOk s)
    (hid : s.intervalId = some id) : ∃ p, s.activeTimers = [(id, p)] := by
  unfold TimersOk at hok
  rw [hid] at hok
  rcases ht : s.activeTimers with _ | ⟨⟨a, b⟩, rest⟩ <;> rw [ht] at hok <;>
    simp [Option.toList] at hok
  obtain ⟨ha, hrest⟩ := hok
  exact ⟨b, by rw [ha, hrest]⟩

theorem timersOk_length_le {s : BotState} (hok : TimersOk s) :
    s.activeTimers.length ≤ 1 := by
  have hlen := congrArg List.length hok
  rw [List.length_map] at hlen
  rw [hlen]
  rcases s.intervalId <;> simp [Option.toList]

/-- Under `TimersOk`, `stop` always reaches the no-timer state. -/
theorem stop_resolved {s : BotState} (h : TimersOk s) :
    (stop s).intervalId = none ∧ (stop s).activeTimers = [] := by
  rcases hid : s.intervalId with _ | id
  · rw [stop_of_none hid]
    exact ⟨hid, timersOk_none h hid⟩
  · obtain ⟨p, hp⟩ := timersOk_some h hid
    rw [stop_of_some hid hp]
    exact ⟨rfl, rfl⟩

/-- The state `start` works on after its initial conditional `stop`:
interval cleared, timers gone, everything else intact. -/
theorem start_aux_resolved {s : BotState} (h : TimersOk s) :
    (if s.intervalId.isSome then stop s else s).intervalId = none ∧
    (if s.intervalId.isSome then stop s else s).activeTimers = [] ∧
    (if s.intervalId.isSome then stop s else s).config = s.config ∧
    (if s.intervalId.isSome then stop s else s).nextTimerId = s.nextTimerId := by
  rcases hid : s.intervalId with _ | id
  · rw [if_neg (show ¬((none : Option Nat).isSome = true) by simp)]
    exact ⟨hid, timersOk_none h hid, rfl, rfl⟩
  · rw [if_pos (show ((some id : Option Nat).isSome = true) by simp)]
    exact ⟨(stop_resolved h).1, (stop_resolved h).2, (stop_frame s).1,
      (stop_frame s).2.2⟩

/-- Under the invariant, `start` on an enabled bot arms exactly one
fresh timer (with the current `intervalMinutes` period) and keeps the
configuration; on a disabled bot it is a complete no-op: no timer
armed and no callback invoked. -/
theorem start_spec (fmt : List PriceData → String)
    (fetch : Except Unit (List PriceData)) (now : Nat) {s : BotState}
    (h : TimerInv s) :
    (s.config.enabled = false → start fmt fetch now s = (s, [])) ∧
    (s.config.enabled = true →
      (start fmt fetch now s).1.intervalId = some s.nextTimerId ∧
      (start fmt fetch now s).1.activeTimers =
        [(s.nextTimerId, s.config.intervalMinutes * 60 * 1000)] ∧
      (start fmt fetch now s).1.config = s.config ∧
      (start fmt fetch now s).1.nextTimerId = s.nextTimerId + 1) := by
  obtain ⟨hen, hok⟩ := h
  obtain ⟨ha1, ha2, ha3, ha4⟩ := start_aux_resolved hok
  constructor
  · intro hdis
    have hid := hen hdis
    have hns : s.intervalId.isSome = false := by rw [hid]; rfl
    unfold start
    dsimp only
    rw [hns, if_neg (show ¬(false = true) by simp), hdis]
    rfl
  · intro hena
    unfold start
    dsimp only
    obtain ⟨hf1, hf2, hf3, hf4⟩ :=
      sendPriceUpdate_frame fmt fetch now (if s.intervalId.isSome then stop s else s)
    have hcen : (if s.intervalId.isSome then stop s else s).config.enabled = true := by
      rw [ha3, hena]
    rw [hcen, Bool.not_true, if_neg (show ¬(false = true) by simp)]
    refine ⟨?_, ?_, ?_, ?_⟩ <;>
      simp only [hf1, hf2, hf3, hf4, ha1, ha2, ha3, ha4, List.nil_append]

/-- `TimerInv` transfers along states agreeing on the timer-relevant
fields. -/
theorem timerInv_congr {s t : BotState} (h1 : t.intervalId = s.intervalId)
    (h2 : t.activeTimers = s.activeTimers) (h3 : t.config = s.config)
    (h : TimerInv s) : TimerInv t := by
  constructor
  · intro hf
    rw [h3] at hf
    rw [h1]
    exact h.1 hf
  · unfold TimersOk
    rw [h1, h2]
    exact h.2

theorem timerInv_initBot (c : PriceBotConfig) : TimerInv (initBot c) :=
  ⟨fun _ => rfl, rfl⟩

theorem timerInv_stop {s : BotState} (h : TimerInv s) : TimerInv (stop s) := by
  obtain ⟨hid, ht⟩ := stop_resolved h.2
  refine ⟨fun _ => hid, ?_⟩
  unfold TimersOk
  rw [hid, ht]
  rfl

theorem timerInv_sendPriceUpdate (fmt : List PriceData → String)
    (fetch : Except Unit (List PriceData)) (now : Nat) {s : BotState}
    (h : TimerInv s) : TimerInv (sendPriceUpdate fmt fetch now s).1 := by
  obtain ⟨h1, h2, _, h4⟩ := sendPriceUpdate_frame fmt fetch now s
  exact timerInv_congr h1 h2 h4 h

theorem timerInv_start (fmt : List PriceData → String)
    (fetch : Except Unit (List PriceData)) (now : Nat) {s : BotState}
    (h : TimerInv s) : TimerInv (start fmt fetch now s).1 := by
  rcases hen : s.config.enabled with _ | _
  · rw [(start_spec fmt fetch now h).1 hen]
    exact h
  · obtain ⟨h1, h2, h3, _⟩ := (start_spec fmt fetch now h).2 hen
    constructor
    · intro hf
      rw [h3, hen] at hf
      exact absurd hf (by simp)
    · unfold TimersOk
      rw [h1, h2]
      rfl

theorem timerInv_updateConfig (fmt : List PriceData → String)
    (fetch : Except Unit (List PriceData)) (now : Nat)
    (p : PartialPriceBotConfig) {s : BotState} (h : TimerInv s) :
    TimerInv (updateConfig fmt fetch now p s).1 := by
  unfold updateConfig
  dsimp only
  split
  next hc =>
    -- merged enabled while stopped: start
    rw [Bool.and_eq_true] at hc
    apply timerInv_start
    refine ⟨fun _ => ?_, h.2⟩
    exact Option.isNone_iff_eq_none.mp hc.2
  next hc1 =>
    split
    next hc2 =>
      -- merged disabled while running: stop
      have h2 : TimersOk { s with config := mergeConfig s.config p } := h.2
      obtain ⟨hi, ht⟩ := stop_resolved h2
      refine ⟨fun _ => hi, ?_⟩
      unfold TimersOk
      rw [hi, ht]
      rfl
    next hc2 =>
      -- no reaction: only the configuration changes
      refine ⟨fun hf => ?_, h.2⟩
      show s.intervalId = none
      have hf2 : (mergeConfig s.config p).enabled = false := hf
      simp only [hf2, Bool.not_false, Bool.true_and] at hc2
      rcases hiv : s.intervalId with _ | id
      · rfl
      · rw [hiv] at hc2
        exact absurd rfl hc2

theorem timerInv_timerTick (fmt : List PriceData → String)
    (fetch : Except Unit (List PriceData)) (now : Nat) (id : Nat) {s : BotState}
    (h : TimerInv s) : TimerInv (timerTick fmt fetch now id s).1 := by
  unfold timerTick
  split
  · exact timerInv_sendPriceUpdate fmt fetch now h
  · exact h

/-- Every state reachable through the public surface satisfies the
timer-consistency invariant. -/
theorem reachable_timerInv {s : BotState} (h : Reachable s) : TimerInv s := by
  induction h with
  | init c => exact timerInv_initBot c
  | start fmt fetch now _ ih => exact timerInv_start fmt fetch now ih
  | stop _ ih => exact timerInv_stop ih
  | updateConfig fmt fetch now p _ ih => exact timerInv_updateConfig fmt fetch now p ih
  | manual fmt fetch now _ ih => exact timerInv_sendPriceUpdate fmt fetch now ih
  | tick fmt fetch now id _ ih => exact timerInv_timerTick fmt fetch now id ih

/-- `start` never changes the configuration. -/
theorem start_config (fmt : List PriceData → String)
    (fetch : Except Unit (List PriceData)) (now : Nat) (s : BotState) :
    (start fmt fetch now s).1.config = s.config := by
  unfold start
  dsimp only
  set X := if s.intervalId.isSome then stop s else s with hX
  have hXc : X.config = s.config := by
    rw [hX]
    split
    · exact (stop_frame s).1
    · rfl
  split
  · exact hXc
  · dsimp only
    rw [(sendPriceUpdate_frame fmt fetch now X).2.2.2]
    exact hXc

/-- The `updateConfig` branch that starts the scheduler. -/
theorem updateConfig_start_branch (fmt : List PriceData → String)
    (fetch : Except Unit (List PriceData)) (now : Nat) (p : PartialPriceBotConfig)
    {s : BotState} (he : (mergeConfig s.config p).enabled = true)
    (hi : s.intervalId = none) :
    updateConfig fmt fetch now p s =
      start fmt fetch now { s with config := mergeConfig s.config p } := by
  unfold updateConfig
  dsimp only
  rw [if_pos (show ((mergeConfig s.config p).enabled && s.intervalId.isNone) = true
    by rw [he, hi]; rfl)]

/-- The `updateConfig` branch that stops the scheduler. -/
theorem updateConfig_stop_branch (fmt : List PriceData → String)
    (fetch : Except Unit (List PriceData)) (now : Nat) (p : PartialPriceBotConfig)
    {s : BotState} {id : Nat} (he : (mergeConfig s.config p).enabled = false)
    (hi : s.intervalId = some id) :
    updateConfig fmt fetch now p s =
      (stop { s with config := mergeConfig s.config p }, []) := by
  unfold updateConfig
  dsimp only
  rw [if_neg (by simp [he]), if_pos (by rw [he, hi]; rfl)]

/-- The `updateConfig` branches with no automatic reaction: only the
configuration field changes; in particular the armed timers (and their
periods) stay exactly as they were. -/
theorem updateConfig_noop (fmt : List PriceData → String)
    (fetch : Except Unit (List PriceData)) (now : Nat) (p : PartialPriceBotConfig)
    {s : BotState}
    (h : ((mergeConfig s.config p).enabled = true ∧ s.intervalId ≠ none) ∨
         ((mergeConfig s.config p).enabled = false ∧ s.intervalId = none)) :
    updateConfig fmt fetch now p s =
      ({ s with config := mergeConfig s.config p }, []) := by
  unfold updateConfig
  dsimp only
  rcases h with ⟨he, hi⟩ | ⟨he, hi⟩
  · rw [if_neg (by simp [he, Option.isNone_iff_eq_none, hi]),
      if_neg (by simp [he])]
  · rw [if_neg (by simp [he]), if_neg (by simp [hi])]

/-- A tick of a host world with no armed timers does nothing. -/
theorem timerTick_no_timers (fmt : List PriceData → String)
    (fetch : Except Unit (List PriceData)) (now : Nat) (id : Nat)
    {s : BotState} (h : s.activeTimers = []) :
    timerTick fmt fetch now id s = (s, []) := by
  unfold timerTick
  rw [h]
  rfl

/-- Every element of `getAllPrices` is the successful fetch of one of
the canonical symbols. -/
theorem getAllPrices_mem {feeds : FeedTable} {chain : Chain} {p : PriceData}
    (hp : p ∈ getAllPrices feeds chain) :
    p.symbol ∈ allSymbols ∧ getPrice feeds chain p.symbol = some p := by
  unfold getAllPrices at hp
  rw [List.mem_filterMap] at hp
  obtain ⟨o, ho, hop⟩ := hp
  rw [List.mem_map] at ho
  obtain ⟨sym, hsym, hso⟩ := ho
  simp only [id] at hop
  subst hop
  rw [getPrice_symbol hso]
  exact ⟨hsym, hso⟩

/-- C1 (counterexample): a manual update whose fetched-then-filtered
price list is empty invokes the callback zero times — not exactly once,
and with no error message — because `sendPriceUpdate` silently skips
empty cycles for the manual path exactly as for the timer path. -/
theorem C1_counterexample :
    (triggerManualUpdate (fun _ => "") (Except.ok []) 0
      (initBot defaultPriceBotConfig)).2.length = 0 := rfl

/-- C1 (amended): `triggerManualUpdate` invokes the callback at most
once per call, independently of the `enabled`/running state, and never
touches the timer; a cycle whose fetched-then-filtered list is empty is
silently skipped with no callback (for the manual path as for the timer
path); the single error message — fixed text, no `priceData` — is
emitted only when the cycle's fetch throws. -/
theorem C1_manual_update (fmt : List PriceData → String)
    (fetch : Except Unit (List PriceData)) (now : Nat) (s : BotState) :
    (triggerManualUpdate fmt fetch now s).2.length ≤ 1 ∧
    (triggerManualUpdate fmt fetch now s).1.intervalId = s.intervalId ∧
    (triggerManualUpdate fmt fetch now s).1.activeTimers = s.activeTimers ∧
    (∀ l, fetch = Except.ok l →
      (l.filter (fun price => s.config.symbols.contains price.symbol)).length = 0 →
      triggerManualUpdate fmt fetch now s = (s, [])) ∧
    (∀ e, fetch = Except.error e →
      (triggerManualUpdate fmt fetch now s).2 = [errorChatMessage now] ∧
      (errorChatMessage now).priceData = none ∧
      (errorChatMessage now).content = failureText) := by
  refine ⟨sendPriceUpdate_length_le fmt fetch now s,
    (sendPriceUpdate_frame fmt fetch now s).1,
    (sendPriceUpdate_frame fmt fetch now s).2.1, ?_, ?_⟩
  · intro l hl hfil
    subst hl
    exact sendPriceUpdate_skip fmt l now s hfil
  · intro e he
    subst he
    rw [show triggerManualUpdate fmt (Except.error e) now s =
      sendPriceUpdate fmt (Except.error e) now s from rfl,
      sendPriceUpdate_error fmt e now s]
    exact ⟨rfl, rfl, rfl⟩

/-- Witness for the amended C1: the empty-fetch manual update on a
fresh default bot is a silent skip. -/
theorem C1_manual_update_witness :
    triggerManualUpdate (fun _ => "") (Except.ok ([] : List PriceData)) 5
      (initBot defaultPriceBotConfig) = (initBot defaultPriceBotConfig, []) :=
  (C1_manual_update (fun _ => "") (Except.ok []) 5
    (initBot defaultPriceBotConfig)).2.2.2.1 [] rfl rfl

/-- C3: a cycle whose fetch step throws is absorbed by the scheduler's
`catch`: the cycle emits exactly the one error message with the fixed
failure text and no `priceData`, the state — in particular an armed
timer — is untouched, and `sendPriceUpdate` being a total function of
type `BotState × List ChatMessage` (not `Except ...`), no exception
crosses the scheduler boundary. -/
theorem C3_failure_absorbed (fmt : List PriceData → String)
    (fetch : Except Unit (List PriceData)) (now : Nat) (s : BotState) :
    ((sendPriceUpdate fmt fetch now s).1.intervalId = s.intervalId ∧
     (sendPriceUpdate fmt fetch now s).1.activeTimers = s.activeTimers) ∧
    (∀ e, fetch = Except.error e →
      sendPriceUpdate fmt fetch now s = (s, [errorChatMessage now]) ∧
      (errorChatMessage now).content = failureText ∧
      (errorChatMessage now).priceData = none) := by
  refine ⟨⟨(sendPriceUpdate_frame fmt fetch now s).1,
    (sendPriceUpdate_frame fmt fetch now s).2.1⟩, ?_⟩
  intro e he
  subst he
  exact ⟨sendPriceUpdate_error fmt e now s, rfl, rfl⟩

/-- Witness for C3 at a concrete failing fetch. -/
theorem C3_failure_absorbed_witness :
    sendPriceUpdate (fun _ => "") (Except.error ()) 0 (initBot defaultPriceBotConfig) =
      (initBot defaultPriceBotConfig, [errorChatMessage 0]) ∧
    (errorChatMessage 0).content = failureText ∧
    (errorChatMessage 0).priceData = none :=
  (C3_failure_absorbed (fun _ => "") (Except.error ()) 0
    (initBot defaultPriceBotConfig)).2 () rfl

/-- C6 (counterexample): the freshly constructed bot with the default
configuration is a reachable state with `enabled = true` and zero
active timers, refuting "`enabled == true` implies exactly one active
timer in every reachable state" (the code leaves `enabled` true after
`stop()` and before any `start()`). -/
theorem C6_counterexample :
    Reachable (initBot defaultPriceBotConfig) ∧
    (initBot defaultPriceBotConfig).config.enabled = true ∧
    (initBot defaultPriceBotConfig).activeTimers.length ≠ 1 :=
  ⟨Reachable.init defaultPriceBotConfig, rfl, by decide⟩

/-- C6 (amended): in every reachable state, `enabled = false` implies
no tracked interval and no armed timer, and there is never more than
one armed timer; `start()` twice without an intervening `stop()` on an
enabled bot leaves exactly one armed timer; and `start()` on a
disabled bot arms no timer and invokes no callback (it is a complete
no-op).  `enabled = true` does NOT imply a timer is armed (see the
counterexample). -/
theorem C6_timer_invariant {s : BotState} (hs : Reachable s) :
    (s.config.enabled = false → s.intervalId = none ∧ s.activeTimers = []) ∧
    s.activeTimers.length ≤ 1 ∧
    (∀ fmt f1 n1 f2 n2, s.config.enabled = true →
      (start fmt f2 n2 (start fmt f1 n1 s).1).1.activeTimers.length = 1) ∧
    (∀ fmt f n, s.config.enabled = false → start fmt f n s = (s, [])) := by
  have hinv := reachable_timerInv hs
  refine ⟨?_, timersOk_length_le hinv.2, ?_, ?_⟩
  · intro hdis
    have hid := hinv.1 hdis
    exact ⟨hid, timersOk_none hinv.2 hid⟩
  · intro fmt f1 n1 f2 n2 hena
    obtain ⟨h1, h2, h3, h4⟩ := (start_spec fmt f1 n1 hinv).2 hena
    have hinv1 : TimerInv (start fmt f1 n1 s).1 := timerInv_start fmt f1 n1 hinv
    have hena1 : (start fmt f1 n1 s).1.config.enabled = true := by
      rw [h3]
      exact hena
    obtain ⟨g1, g2, g3, g4⟩ := (start_spec fmt f2 n2 hinv1).2 hena1
    rw [g2]
    rfl
  · intro fmt f n hdis
    exact (start_spec fmt f n hinv).1 hdis

/-- Witness for the amended C6: two `start()` calls on a fresh enabled
default bot leave exactly one armed timer. -/
theorem C6_timer_invariant_witness :
    (start (fun _ => "") (Except.ok []) 0
      (start (fun _ => "") (Except.ok []) 0
        (initBot defaultPriceBotConfig)).1).1.activeTimers.length = 1 :=
  (C6_timer_invariant (Reachable.init defaultPriceBotConfig)).2.2.1
    (fun _ => "") (Except.ok []) 0 (Except.ok []) 0 rfl

/-- C8: `updateConfig(partial)` merges the partial fields into the
configuration; when the merged `enabled` is true and no interval is
tracked it behaves as `start()`; when the merged `enabled` is false and
an interval is tracked it stops, after which timer ticks produce no
further callback invocations; in all other cases only the configuration
field changes — in particular, changing `intervalMinutes` while running
leaves the armed timer (with its old period) untouched. -/
theorem C8_updateConfig (fmt : List PriceData → String)
    (fetch : Except Unit (List PriceData)) (now : Nat)
    (p : PartialPriceBotConfig) {s : BotState} (hs : Reachable s) :
    (updateConfig fmt fetch now p s).1.config = mergeConfig s.config p ∧
    ((mergeConfig s.config p).enabled = true → s.intervalId = none →
      updateConfig fmt fetch now p s =
        start fmt fetch now { s with config := mergeConfig s.config p }) ∧
    ((mergeConfig s.config p).enabled = false → ∀ id, s.intervalId = some id →
      updateConfig fmt fetch now p s =
        (stop { s with config := mergeConfig s.config p }, []) ∧
      (∀ fmt2 f2 n2 id2,
        timerTick fmt2 f2 n2 id2 (updateConfig fmt fetch now p s).1 =
          ((updateConfig fmt fetch now p s).1, []))) ∧
    ((mergeConfig s.config p).enabled = true → s.intervalId ≠ none →
      updateConfig fmt fetch now p s =
        ({ s with config := mergeConfig s.config p }, [])) ∧
    ((mergeConfig s.config p).enabled = false → s.intervalId = none →
      updateConfig fmt fetch now p s =
        ({ s with config := mergeConfig s.config p }, [])) := by
  refine ⟨?_, ?_, ?_, ?_, ?_⟩
  · rcases he : (mergeConfig s.config p).enabled with _ | _ <;>
      rcases hi : s.intervalId with _ | id
    · rw [updateConfig_noop fmt fetch now p (Or.inr ⟨he, hi⟩)]
    · rw [updateConfig_stop_branch fmt fetch now p he hi]
      exact (stop_frame _).1
    · rw [updateConfig_start_branch fmt fetch now p he hi, start_config]
    · rw [updateConfig_noop fmt fetch now p (Or.inl ⟨he, by rw [hi]; simp⟩)]
  · intro he hi
    exact updateConfig_start_branch fmt fetch now p he hi
  · intro he id hi
    have heq := updateConfig_stop_branch fmt fetch now p he hi
    refine ⟨heq, ?_⟩
    intro fmt2 f2 n2 id2
    have h2 : TimersOk { s with config := mergeConfig s.config p } :=
      (reachable_timerInv hs).2
    have ht : (updateConfig fmt fetch now p s).1.activeTimers = [] := by
      rw [heq]
      exact (stop_resolved h2).2
    exact timerTick_no_timers fmt2 f2 n2 id2 ht
  · intro he hi
    exact updateConfig_noop fmt fetch now p (Or.inl ⟨he, hi⟩)
  · intro he hi
    exact updateConfig_noop fmt fetch now p (Or.inr ⟨he, hi⟩)

/-- Witness for C8: an empty partial on the fresh default bot (merged
`enabled` true, no interval tracked) behaves as `start()`. -/
theorem C8_updateConfig_witness :
    updateConfig (fun _ => "") (Except.ok []) 0 {} (initBot defaultPriceBotConfig) =
      start (fun _ => "") (Except.ok []) 0
        { initBot defaultPriceBotConfig with
            config := mergeConfig (initBot defaultPriceBotConfig).config {} } :=
  (C8_updateConfig (fun _ => "") (Except.ok []) 0 {}
    (Reachable.init defaultPriceBotConfig)).2.1 rfl rfl

/-- C10: the canonical set fetched by `getAllPrices` is exactly
`["BTC/USD", "ETH/USD", "BTC/ETH", "BNB/ETH"]`: every returned entry's
symbol lies in that list and in particular is never `"BNB/USD"`, even
though `"BNB/USD"` has an entry in both oracle address tables; hence a
bot configured with symbols `["BNB/USD"]` never emits a price message
in any (non-throwing) update cycle. -/
theorem C10_canonical_set :
    (∀ feeds chain, ∀ p ∈ getAllPrices feeds chain,
      p.symbol ∈ allSymbols ∧ p.symbol ≠ "BNB/USD") ∧
    CHAINLINK_PRICE_FEEDS "BNB/USD" ≠ none ∧
    CHAINLINK_PRICE_FEEDS_SEPOLIA "BNB/USD" ≠ none ∧
    (∀ feeds chain fmt now s, s.config.symbols = ["BNB/USD"] →
      sendPriceUpdate fmt (Except.ok (getAllPrices feeds chain)) now s = (s, [])) := by
  refine ⟨?_, by decide, by decide, ?_⟩
  · intro feeds chain p hp
    obtain ⟨hmem, -⟩ := getAllPrices_mem hp
    refine ⟨hmem, ?_⟩
    intro hbad
    rw [hbad] at hmem
    exact absurd hmem (by decide)
  · intro feeds chain fmt now s hsym
    apply sendPriceUpdate_skip
    have hfil : (getAllPrices feeds chain).filter
        (fun price => s.config.symbols.contains price.symbol) = [] := by
      rw [List.filter_eq_nil_iff]
      intro p hp
      obtain ⟨hmem, -⟩ := getAllPrices_mem hp
      have hne : p.symbol ≠ "BNB/USD" := by
        intro hbad
        rw [hbad] at hmem
        exact absurd hmem (by decide)
      rw [hsym]
      simp [hne]
    rw [hfil]
    rfl

/-- Witness for C10: on the sample chain, a bot configured with only
`"BNB/USD"` silently skips its update cycle. -/
theorem C10_canonical_set_witness :
    sendPriceUpdate (fun _ => "")
      (Except.ok (getAllPrices CHAINLINK_PRICE_FEEDS sampleChain)) 0
      (initBot { intervalMinutes := 5, enabled := true, symbols := ["BNB/USD"] }) =
      (initBot { intervalMinutes := 5, enabled := true, symbols := ["BNB/USD"] }, []) :=
  C10_canonical_set.2.2.2 CHAINLINK_PRICE_FEEDS sampleChain (fun _ => "") 0
    (initBot { intervalMinutes := 5, enabled := true, symbols := ["BNB/USD"] }) rfl

theorem set_append_length {α : Type} (l : List α) (c x : α) :
    (l ++ [c]).set l.length x = l ++ [x] := by
  induction l with
  | nil => rfl
  | cons a t ih => simp [List.set, ih]

theorem getD_append_self {α : Type} (l : List α) (c d : α) :
    (l ++ [c]).getD l.length d = c := by
  induction l with
  | nil => rfl
  | cons a t ih => simp [ih]

theorem getD_append_lt {α : Type} (l l2 : List α) (i : Nat) (d : α)
    (h : i < l.length) : (l ++ l2).getD i d = l.getD i d := by
  induction l generalizing i with
  | nil => exact absurd h (Nat.not_lt_zero i)
  | cons a t ih =>
    cases i with
    | zero => rfl
    | succ j => simpa using ih j (Nat.lt_of_succ_lt_succ h)

/-- C9 (counterexample): the copy returned by `getConfig()` is only a
*shallow* copy — it shares the `symbols` array by reference, so pushing
onto the returned config's symbols list changes the symbols the
scheduler itself reads: external mutation through the accessor does
alter the internal configuration. -/
theorem C9_counterexample :
    readArray (arrayPush sampleWorld (getConfigImpl sampleBot).symbolsRef "BNB/USD")
        sampleBot.symbolsRef ≠
      readArray sampleWorld sampleBot.symbolsRef := by decide

/-- C9 (amended): `getPreviousPrices()` allocates a fresh map — entry
mutation through the returned reference leaves the scheduler's internal
map unchanged, and the copy carries exactly the current entries — and
`getConfig()` copies the top-level configuration fields into a fresh
record; the `symbols` array, however, is shared by reference, so
mutation through it reaches the internal configuration (see the
counterexample). -/
theorem C9_defensive_copies (w : World) (b : BotObj)
    (hpm : b.prevMapRef < w.maps.length) :
    (∀ k v, readMap (mapObjSet (getPreviousPricesImpl w b).1
        (getPreviousPricesImpl w b).2 k v) b.prevMapRef =
      readMap w b.prevMapRef) ∧
    readMap (getPreviousPricesImpl w b).1 (getPreviousPricesImpl w b).2 =
      readMap w b.prevMapRef ∧
    getConfigImpl b = ⟨b.intervalMinutes, b.enabled, b.symbolsRef⟩ := by
  have hcopy : readMap (getPreviousPricesImpl w b).1 (getPreviousPricesImpl w b).2 =
      readMap w b.prevMapRef := by
    unfold getPreviousPricesImpl allocMap readMap
    dsimp only
    exact getD_append_self w.maps (w.maps.getD b.prevMapRef []) []
  refine ⟨?_, hcopy, rfl⟩
  intro k v
  unfold mapObjSet
  rw [hcopy]
  unfold getPreviousPricesImpl allocMap readMap
  dsimp only
  rw [set_append_length w.maps (w.maps.getD b.prevMapRef [])
    (mapSet (w.maps.getD b.prevMapRef []) k v)]
  exact getD_append_lt w.maps [mapSet (w.maps.getD b.prevMapRef []) k v]
    b.prevMapRef [] hpm

/-- Witness for the amended C9: a `set` through the map copy leaves the
sample bot's internal previous-price map unchanged. -/
theorem C9_defensive_copies_witness :
    readMap (mapObjSet (getPreviousPricesImpl sampleWorld sampleBot).1
        (getPreviousPricesImpl sampleWorld sampleBot).2 "BTC/USD" samplePriceData)
      sampleBot.prevMapRef = readMap sampleWorld sampleBot.prevMapRef :=
  (C9_defensive_copies sampleWorld sampleBot (by decide)).1 "BTC/USD" samplePriceData

end LabiChat
